import Mathlib

/-!
Verification development for the Telegram → LuluStream re-hosting bot
(`bot.py` and `api/webhook.py`).

The embedding is shallow:

* JSON values returned by the LuluStream HTTP endpoints are modelled by the
  inductive `Json`, with Python truthiness (`Json.truthy`), Python `dict.get`
  (`dict_get`, returning `Json.null` for a missing key, which is how Python's
  `None` behaves under `or`-chains and truthiness tests) and Python's
  short-circuiting `or` on values (`pyOr`).
* yt-dlp format descriptors are modelled by the typed structure `FormatDict`
  (the fields the selector reads, with `Option` for absent-or-null values, and
  numeric fields as integers), and a format list may also contain malformed
  non-dict entries (`FormatEntry.malformed`), which the selector skips.
* Each blocking call of the pipeline is an oracle carried in `Env`
  (extraction result, the two LuluStream HTTP responses, the send-photo
  outcome); `_handle_admin_message` then is a pure function from the oracle
  environment and the incoming update to the list of observable effects
  (`Event`): replies sent, external calls made, and the photo message.
* Python's `list.sort(key=..., reverse=True)` is a stable descending sort;
  it is modelled by the stable insertion sort `sortDesc` with the same
  comparison on the same key triples.
-/

/-- JSON values as delivered by the LuluStream endpoints.  Numbers are
modelled as integers (every numeric field the code reads is compared only
for truthiness). -/
inductive Json where
  | null
  | bool (b : Bool)
  | num (n : Int)
  | str (s : String)
  | arr (elems : List Json)
  | obj (fields : List (String × Json))

/-- Python truthiness of a JSON value: `None`, `False`, `0`, `""`, `[]` and
an empty object are falsy, everything else is truthy. -/
def Json.truthy : Json → Bool
  | .null => false
  | .bool b => b
  | .num n => !(n == 0)
  | .str s => !(s == "")
  | .arr elems => !elems.isEmpty
  | .obj fields => !fields.isEmpty

/-- Python `a or b` on values: `a` when `a` is truthy, otherwise `b`. -/
def pyOr (a b : Json) : Json :=
  if a.truthy then a else b

/-- Python `d.get(k)` on a JSON object given as a key/value list: the first
value stored under `k`, or `Json.null` (Python `None`) when absent. -/
def dict_get (fields : List (String × Json)) (k : String) : Json :=
  match fields.find? (fun p => p.1 == k) with
  | some p => p.2
  | none => Json.null

/-- Python `j.get(k)` applied to an arbitrary JSON value.  On a non-object
the code under scrutiny only ever applies `.get` to the `result` fallback
`(data.get("result") or {})`; responses that put a truthy non-object under
`result` violate the endpoint contract and are modelled as having no keys. -/
def Json.get : Json → String → Json
  | .obj fields, k => dict_get fields k
  | _, _ => Json.null

/-- Python `str()` of the scalar JSON values the endpoints return.  The
container cases are irrelevant to the specification (the three extracted
fields are scalar per the endpoint contract) and are collapsed. -/
def pyStr : Json → String
  | .str s => s
  | .num n => toString n
  | .bool true => "True"
  | .bool false => "False"
  | .null => "None"
  | .arr _ => ""
  | .obj _ => ""

/-- Reserved MarkdownV2 characters of `_escape_markdown_v2`
(`replace_chars` in the source). -/
def replace_chars : List Char := "_*[]()~`>#+-=|{}.!".data

/-- Escape text for Telegram MarkdownV2, mirroring `_escape_markdown_v2`:
the loop appends `\\ch` for a reserved character and `ch` otherwise, then
joins the pieces. -/
def _escape_markdown_v2 (text : String) : String :=
  String.mk (text.data.foldl
    (fun escaped ch =>
      if replace_chars.contains ch then escaped ++ ['\\', ch]
      else escaped ++ [ch])
    [])

/-- Specification-side description of escaping: every reserved character is
reproduced preceded by a single escape marker, every other character is left
unchanged. -/
def escapeSpec (text : String) : String :=
  String.mk (text.data.flatMap
    (fun ch => if replace_chars.contains ch then ['\\', ch] else [ch]))

/-- Specification-side inverse of escaping: remove each escape marker, i.e.
each backslash that immediately precedes a reserved character. -/
def stripEscapeMarkers : List Char → List Char
  | [] => []
  | [c] => [c]
  | a :: c :: rest =>
    if a = '\\' && replace_chars.contains c then c :: stripEscapeMarkers rest
    else a :: stripEscapeMarkers (c :: rest)

/-- Format descriptor as read by `select_best_direct_format`: the fields the
selector consults, each possibly absent or `null` (`none`).  Numeric fields
are modelled as integers. -/
structure FormatDict where
  url : Option String
  vcodec : Option String
  height : Option Int
  tbr : Option Int
  filesize : Option Int
  filesize_approx : Option Int
deriving DecidableEq

/-- Entry of a yt-dlp `formats` list: a format dict, or a malformed
non-dict entry (skipped by the selector's `isinstance` guard). -/
inductive FormatEntry where
  | dict (d : FormatDict)
  | malformed
deriving DecidableEq

/-- Python truthiness of an optional string (`None` and `""` are falsy). -/
def truthyStr : Option String → Bool
  | some s => !(s == "")
  | none => false

/-- Python `x or d` for an optional integer: the stored integer when truthy
(non-zero), otherwise the default. -/
def pyOrInt (a : Option Int) (d : Int) : Int :=
  match a with
  | some n => if n == 0 then d else n
  | none => d

/-- Qualification test of the selector: `if url and vcodec and vcodec != "none"`. -/
def qualifies (f : FormatDict) : Bool :=
  truthyStr f.url && truthyStr f.vcodec && !(f.vcodec == some "none")

/-- Ranking key of the selector: `(height or 0, tbr or 0,
filesize or filesize_approx or 0)`. -/
def sortKey (f : FormatDict) : Int × Int × Int :=
  (pyOrInt f.height 0, pyOrInt f.tbr 0, pyOrInt f.filesize (pyOrInt f.filesize_approx 0))

/-- Lexicographic `≤` on Python triples of integers, as a Boolean. -/
def lexLe (a b : Int × Int × Int) : Bool :=
  decide (a.1 < b.1) ||
    (decide (a.1 = b.1) && (decide (a.2.1 < b.2.1) ||
      (decide (a.2.1 = b.2.1) && decide (a.2.2 ≤ b.2.2))))

/-- Lexicographic `<` on Python triples of integers, as a Boolean. -/
def lexLt (a b : Int × Int × Int) : Bool :=
  decide (a.1 < b.1) ||
    (decide (a.1 = b.1) && (decide (a.2.1 < b.2.1) ||
      (decide (a.2.1 = b.2.1) && decide (a.2.2 < b.2.2))))

/-- Candidate tuple built by the selector's loop: `(height, tbr, filesize, f)`,
with the three numbers grouped as the ranking key. -/
abbrev Cand := (Int × Int × Int) × FormatDict

/-- Candidate list of `select_best_direct_format`: qualifying dict entries
paired with their ranking key, in input order; non-dict entries are skipped. -/
def candidates (formats : List FormatEntry) : List Cand :=
  formats.filterMap fun f =>
    match f with
    | .malformed => none
    | .dict d => if qualifies d then some (sortKey d, d) else none

/-- Stable insertion of a later-seen candidate into an already sorted
(descending) list: the new element is placed before the first element whose
key it weakly dominates, hence after every earlier element with an equal key. -/
def insertDesc (x : Cand) : List Cand → List Cand
  | [] => [x]
  | y :: ys => if lexLe y.1 x.1 then x :: y :: ys else y :: insertDesc x ys

/-- Stable descending sort by ranking key, modelling Python's stable
`list.sort(key=..., reverse=True)` (which keeps equal-key elements in input
order). -/
def sortDesc (l : List Cand) : List Cand :=
  l.foldr insertDesc []

/-- From a yt-dlp `formats` list, pick the best format with a truthy `url`
and a truthy `vcodec` other than `"none"`, preferring highest height, then
`tbr`, then filesize; `none` when no entry qualifies.  (The source returns
`None` on an empty candidate list and otherwise the head of the sorted list;
sorting the empty list is empty, so the two guards coincide.) -/
def select_best_direct_format (formats : List FormatEntry) : Option FormatDict :=
  match sortDesc (candidates formats) with
  | [] => none
  | c :: _ => some c.2

/-- Specification-side list of qualifying format dicts, in input order. -/
def qualifying (formats : List FormatEntry) : List FormatDict :=
  formats.filterMap fun f =>
    match f with
    | .malformed => none
    | .dict d => if qualifies d then some d else none

/-- Outcome of one HTTP GET against a LuluStream endpoint: a transport
error (`requests.RequestException`), a body that is not valid JSON
(`resp.json()` raising `ValueError`), or a JSON object body.  Both endpoint
contracts return JSON objects, so bodies are modelled as key/value lists. -/
inductive HttpResp where
  | transportError (e : String)
  | notJson
  | json (fields : List (String × Json))

/-- LuluStream URL-upload client, mirroring `upload_url_to_lulustream`.
The first component records the endpoints actually requested (empty when
the function fails before any network traffic); the second is the returned
file code or the raised `RuntimeError` message. -/
def upload_url_to_lulustream (video_url : String) (lulu_key : String)
    (net : HttpResp) : List String × Except String String :=
  if lulu_key = "" then
    ([], .error "LuluStream API key is not configured.")
  else
    let endpoint :=
      "https://lulustream.com/api/upload/url?key=" ++ lulu_key ++ "&url=" ++ video_url
    ([endpoint],
      match net with
      | .transportError e =>
          .error ("Failed to reach LuluStream upload endpoint: " ++ e)
      | .notJson => .error "LuluStream upload response was not valid JSON."
      | .json fields =>
          match dict_get fields "result" with
          | .obj rfields =>
              let filecode :=
                pyOr (dict_get rfields "filecode")
                  (pyOr (dict_get rfields "file_code") (dict_get rfields "fileCode"))
              if filecode.truthy then .ok (pyStr filecode)
              else .error "LuluStream upload response missing filecode."
          | _ => .error "LuluStream upload response missing 'result'.")

/-- Normalized file information returned by the info client. -/
structure FileInfo where
  file_title : String
  player_img : String
  file_code : String
deriving DecidableEq

/-- LuluStream file-info client, mirroring `get_file_info_from_lulustream`.
The first component records the endpoints actually requested; the second is
the normalized triple or the raised `RuntimeError` message. -/
def get_file_info_from_lulustream (file_code : String) (lulu_key : String)
    (net : HttpResp) : List String × Except String FileInfo :=
  if lulu_key = "" then
    ([], .error "LuluStream API key is not configured.")
  else
    let endpoint :=
      "https://lulustream.com/api/file/info?key=" ++ lulu_key ++ "&file_code=" ++ file_code
    ([endpoint],
      match net with
      | .transportError e =>
          .error ("Failed to reach LuluStream file/info endpoint: " ++ e)
      | .notJson => .error "LuluStream file/info response was not valid JSON."
      | .json fields =>
          let file_title :=
            pyOr (dict_get fields "file_title")
              (pyOr (dict_get fields "title")
                (Json.get (pyOr (dict_get fields "result") (Json.obj [])) "file_title"))
          let player_img :=
            pyOr (dict_get fields "player_img")
              (pyOr (dict_get fields "thumbnail")
                (Json.get (pyOr (dict_get fields "result") (Json.obj [])) "player_img"))
          let file_code_resp :=
            pyOr (dict_get fields "file_code")
              (pyOr (dict_get fields "filecode")
                (Json.get (pyOr (dict_get fields "result") (Json.obj [])) "file_code"))
          if file_title.truthy && player_img.truthy && file_code_resp.truthy then
            .ok ⟨pyStr file_title, pyStr player_img, pyStr file_code_resp⟩
          else .error "LuluStream file/info response missing required fields.")

/-- Ordered-candidate lookup in Python `or`-chain style: the first truthy
value wins; when none is truthy the final candidate is returned (its falsy
value only feeds the subsequent truthiness test). -/
def orChain : List Json → Json
  | [] => Json.null
  | [j] => j
  | j :: rest => if j.truthy then j else orChain rest

/-- Specification-side tolerant field lookup of the info client: an ordered
list of top-level candidate keys, then the fallback key read from the
`result` object. -/
def fieldLookup (fields : List (String × Json)) (tops : List String)
    (nested : String) : Json :=
  orChain (tops.map (dict_get fields) ++
    [Json.get (pyOr (dict_get fields "result") (Json.obj [])) nested])

/-- Metadata structure returned by the extractor, as consumed by the
handler: its `formats` list, `none` when the key is absent or falsy
(the handler replaces both by the empty list via `info.get("formats") or []`). -/
structure YtInfo where
  formats : Option (List FormatEntry)

/-- Incoming Telegram message: its text, `none` for a non-text message. -/
structure Msg where
  text : Option String

/-- Incoming update: the message and the sender's numeric identity
(`update.effective_user`, `none` when absent). -/
structure Upd where
  message : Option Msg
  effectiveUser : Option Int

/-- Oracle environment of one orchestration pass: the configuration read
from the environment variables and the outcome of each blocking call,
should it be reached. -/
structure Env where
  ADMIN_USER_ID : Option Int
  LULU_KEY : String
  extract : String → Except String YtInfo
  uploadNet : HttpResp
  infoNet : HttpResp
  sendPhotoResult : Option String

/-- Observable effect of the handler: an outbound reply to the incoming
message, one of the three external calls, or the final photo message. -/
inductive Event where
  | reply (text : String)
  | extractCall
  | uploadCall
  | infoCall
  | sendPhotoCall (chatId : Int) (photo : String) (caption : String)
deriving DecidableEq

/-- ASCII whitespace stripped by Python's `str.strip()`. -/
def isPySpace (c : Char) : Bool :=
  c = ' ' || c = '\t' || c = '\n' || c = '\r' || c = '\x0b' || c = '\x0c'

/-- Python `str.strip()`: drop leading and trailing whitespace. -/
def pyStrip (s : String) : String :=
  String.mk (((s.data.dropWhile isPySpace).reverse.dropWhile isPySpace).reverse)

/-- Message orchestrator, mirroring `_handle_admin_message`: silently drop
non-text messages and messages not from the configured administrator; prompt
on empty text; otherwise run extraction, format selection, upload and
info-fetch in sequence, abort with a stage-specific reply on the first
failure, and finally send the photo message with the escaped caption.  The
result is the list of observable effects in order. -/
def _handle_admin_message (env : Env) (update : Upd) : List Event :=
  match update.message with
  | none => []
  | some msg =>
    match msg.text with
    | none => []
    | some rawText =>
      match update.effectiveUser, env.ADMIN_USER_ID with
      | some senderId, some adminId =>
        if senderId = adminId then
          let text := pyStrip rawText
          if text = "" then
            [.reply "Please send a valid video page URL or a direct video URL."]
          else
            [.reply "Processing URL — extracting metadata (no download).",
             .extractCall] ++
            match env.extract text with
            | .error e => [.reply ("Metadata extraction failed: " ++ e)]
            | .ok info =>
              let formats := info.formats.getD []
              match select_best_direct_format formats with
              | none =>
                  [.reply "No valid direct video URL (format with video codec) found in metadata."]
              | some best =>
                let direct_url := best.url.getD ""
                if direct_url = "" then
                  [.reply "Selected format did not contain a direct URL."]
                else
                  [.uploadCall] ++
                  match (upload_url_to_lulustream direct_url env.LULU_KEY env.uploadNet).2 with
                  | .error e => [.reply ("LuluStream upload failed: " ++ e)]
                  | .ok file_code =>
                    [.infoCall] ++
                    match (get_file_info_from_lulustream file_code env.LULU_KEY env.infoNet).2 with
                    | .error e =>
                        [.reply ("Failed to retrieve file info from LuluStream: " ++ e)]
                    | .ok info_resp =>
                      let caption :=
                        "🎬 " ++ _escape_markdown_v2 info_resp.file_title ++
                          "\n\n▶️ Watch: https://lulustream.com/" ++ info_resp.file_code
                      [.sendPhotoCall adminId info_resp.player_img caption] ++
                      match env.sendPhotoResult with
                      | some e => [.reply ("Failed to send result photo: " ++ e)]
                      | none => []
        else []
      | _, _ => []

/-- Inbound body of a webhook POST: `request.get_json(force=True)` either
raises (unparsable) or yields a JSON value. -/
inductive ReqBody where
  | unparsable
  | parsed (j : Json)

/-- Oracle environment of the webhook entrypoint: the Telegram update
parser and whether `app.process_update` raises. -/
structure WebhookEnv where
  deJson : Json → Except String Upd
  processFails : Bool

/-- Webhook handler, mirroring `webhook_entry`: the HTTP status and body of
the response, paired with whether the orchestrator (`app.process_update`)
was invoked. -/
def webhook_entry (env : WebhookEnv) (req : ReqBody) : (Nat × String) × Bool :=
  match req with
  | .unparsable => ((400, "Invalid JSON"), false)
  | .parsed body =>
    if !body.truthy then ((400, "Empty body"), false)
    else
      match env.deJson body with
      | .error _ => ((400, "Failed to parse Telegram Update"), false)
      | .ok _ =>
        if env.processFails then ((200, "Processed with internal errors"), true)
        else ((200, "OK"), true)

/-- Does `pat` occur as a contiguous run inside the character list? -/
def containsSeq (pat : List Char) : List Char → Bool
  | [] => pat.isEmpty
  | c :: rest => pat.isPrefixOf (c :: rest) || containsSeq pat rest

/-- Does an event reply with a message identifying the upload stage, i.e.
a reply whose text contains the upload-failure phrase? -/
def mentionsUploadFailure : Event → Bool
  | .reply t => containsSeq "LuluStream upload failed".data t.data
  | _ => false

/-! ### Helper lemmas: lexicographic key order -/

theorem lexLe_refl (a : Int × Int × Int) : lexLe a a = true := by
  simp [lexLe]

theorem lexLe_trans {a b c : Int × Int × Int} (h1 : lexLe a b = true)
    (h2 : lexLe b c = true) : lexLe a c = true := by
  simp only [lexLe, Bool.or_eq_true, Bool.and_eq_true, decide_eq_true_eq] at h1 h2 ⊢
  rcases h1 with h1 | ⟨e1, h1⟩
  · rcases h2 with h2 | ⟨e2, _⟩
    · exact Or.inl (h1.trans h2)
    · exact Or.inl (e2 ▸ h1)
  · rcases h2 with h2 | ⟨e2, h2⟩
    · exact Or.inl (e1 ▸ h2)
    · refine Or.inr ⟨e1.trans e2, ?_⟩
      rcases h1 with h1 | ⟨f1, h1⟩
      · rcases h2 with h2 | ⟨f2, _⟩
        · exact Or.inl (h1.trans h2)
        · exact Or.inl (f2 ▸ h1)
      · rcases h2 with h2 | ⟨f2, h2⟩
        · exact Or.inl (f1 ▸ h2)
        · exact Or.inr ⟨f1.trans f2, h1.trans h2⟩

theorem lexLt_of_not_le {a b : Int × Int × Int} (h : lexLe a b = false) :
    lexLt b a = true := by
  simp only [lexLe, Bool.or_eq_false_iff, Bool.and_eq_false_iff,
    decide_eq_false_iff_not, not_lt] at h
  simp only [lexLt, Bool.or_eq_true, Bool.and_eq_true, decide_eq_true_eq]
  omega

theorem lexLe_of_lt {a b : Int × Int × Int} (h : lexLt a b = true) :
    lexLe a b = true := by
  simp only [lexLt, Bool.or_eq_true, Bool.and_eq_true, decide_eq_true_eq] at h
  simp only [lexLe, Bool.or_eq_true, Bool.and_eq_true, decide_eq_true_eq]
  omega

/-! ### Helper lemmas: the stable descending sort -/

theorem insertDesc_ne_nil (x : Cand) (s : List Cand) : insertDesc x s ≠ [] := by
  cases s with
  | nil => simp [insertDesc]
  | cons y ys =>
    simp only [insertDesc]
    split <;> simp

theorem sortDesc_ne_nil (l : List Cand) (h : l ≠ []) : sortDesc l ≠ [] := by
  cases l with
  | nil => exact absurd rfl h
  | cons a l => exact insertDesc_ne_nil a (sortDesc l)

theorem mem_insertDesc {y x : Cand} {s : List Cand} :
    y ∈ insertDesc x s ↔ y = x ∨ y ∈ s := by
  induction s with
  | nil => simp [insertDesc]
  | cons z zs ih =>
    simp only [insertDesc]
    split
    · simp [or_comm, or_assoc, or_left_comm]
    · simp only [List.mem_cons, ih]
      tauto

theorem mem_sortDesc {y : Cand} {l : List Cand} : y ∈ sortDesc l ↔ y ∈ l := by
  induction l with
  | nil => simp [sortDesc]
  | cons a l ih =>
    show y ∈ insertDesc a (sortDesc l) ↔ _
    rw [mem_insertDesc, ih]
    simp

theorem sortDesc_head {l : List Cand} {b : Cand} {t : List Cand}
    (h : sortDesc l = b :: t) :
    (∀ d ∈ l, lexLe d.1 b.1 = true) ∧
      ∃ pre post, l = pre ++ b :: post ∧ ∀ d ∈ pre, lexLt d.1 b.1 = true := by
  induction l generalizing b t with
  | nil => simp [sortDesc] at h
  | cons a l ih =>
    have hs : sortDesc (a :: l) = insertDesc a (sortDesc l) := rfl
    rw [hs] at h
    cases hl : sortDesc l with
    | nil =>
      have hl0 : l = [] := by
        cases l with
        | nil => rfl
        | cons c l' => exact absurd hl (insertDesc_ne_nil c (sortDesc l'))
      rw [hl] at h
      simp only [insertDesc, List.cons.injEq] at h
      subst hl0
      refine ⟨?_, [], [], by simp [h.1], by simp⟩
      intro d hd
      simp only [List.mem_singleton] at hd
      subst hd
      rw [← h.1]
      exact lexLe_refl _
    | cons b' t' =>
      obtain ⟨ihle, pre', post', hdec, ihlt⟩ := ih hl
      rw [hl] at h
      simp only [insertDesc] at h
      split at h
      case isTrue hcond =>
        obtain ⟨hb, ht⟩ := List.cons.inj h
        subst hb
        refine ⟨?_, [], l, rfl, by simp⟩
        intro d hd
        rcases List.mem_cons.mp hd with hd | hd
        · subst hd; exact lexLe_refl _
        · exact lexLe_trans (ihle d hd) hcond
      case isFalse hcond =>
        obtain ⟨hb, ht⟩ := List.cons.inj h
        subst hb
        have hfalse : lexLe b'.1 a.1 = false := by
          revert hcond; cases lexLe b'.1 a.1 <;> simp
        have hab : lexLt a.1 b'.1 = true := lexLt_of_not_le hfalse
        refine ⟨?_, a :: pre', post', by rw [hdec]; rfl, ?_⟩
        · intro d hd
          rcases List.mem_cons.mp hd with hd | hd
          · subst hd; exact lexLe_of_lt hab
          · exact ihle d hd
        · intro d hd
          rcases List.mem_cons.mp hd with hd | hd
          · subst hd; exact hab
          · exact ihlt d hd

/-! ### Helper lemmas: candidates and qualifying entries -/

theorem candidates_eq_map (formats : List FormatEntry) :
    candidates formats = (qualifying formats).map (fun d => (sortKey d, d)) := by
  induction formats with
  | nil => rfl
  | cons f fs ih =>
    cases f with
    | malformed => simpa [candidates, qualifying] using ih
    | dict d =>
      by_cases hq : qualifies d = true <;>
        simp [candidates, qualifying, hq, ih] at ih ⊢ <;> exact ih

theorem mem_candidates {formats : List FormatEntry} {p : Cand}
    (hp : p ∈ candidates formats) :
    FormatEntry.dict p.2 ∈ formats ∧ qualifies p.2 = true ∧ p.1 = sortKey p.2 := by
  obtain ⟨f, hf, hfe⟩ := List.mem_filterMap.mp hp
  cases f with
  | malformed => simp at hfe
  | dict d =>
    simp only at hfe
    split at hfe
    case isTrue hq =>
      obtain rfl := Option.some.inj hfe
      exact ⟨hf, hq, rfl⟩
    case isFalse => simp at hfe

theorem mem_qualifying {formats : List FormatEntry} {d : FormatDict}
    (hd : FormatEntry.dict d ∈ formats) (hq : qualifies d = true) :
    d ∈ qualifying formats := by
  refine List.mem_filterMap.mpr ⟨.dict d, hd, ?_⟩
  simp [hq]

/-! ### Helper lemmas: strings and prefixes -/

theorem head_data_append (p e : String) (c : Char) (hc : p.data.head? = some c) :
    (p ++ e).data.head? = some c := by
  rw [String.data_append]
  cases hp : p.data with
  | nil => rw [hp] at hc; cases hc
  | cons a l => rw [hp] at hc; rw [List.cons_append]; simpa using hc

theorem append_ne_of_head_ne (p e t : String) (c d : Char)
    (hc : p.data.head? = some c) (hd : t.data.head? = some d) (hcd : c ≠ d) :
    ¬(p ++ e = t) := by
  intro he
  apply hcd
  have h1 := head_data_append p e c hc
  rw [he, hd] at h1
  exact (Option.some.inj h1).symm

theorem isPrefixOf_append_left (l₁ l₂ l₃ : List Char)
    (h : l₁.isPrefixOf l₂ = true) : l₁.isPrefixOf (l₂ ++ l₃) = true := by
  rw [List.isPrefixOf_iff_prefix] at h ⊢
  exact h.trans (List.prefix_append l₂ l₃)

/-! ### Helper lemmas: MarkdownV2 escaping -/

theorem escape_foldl_eq (l acc : List Char) :
    (l.foldl
      (fun escaped ch =>
        if replace_chars.contains ch then escaped ++ ['\\', ch]
        else escaped ++ [ch]) acc)
      = acc ++ l.flatMap
          (fun ch => if replace_chars.contains ch then ['\\', ch] else [ch]) := by
  induction l generalizing acc with
  | nil => simp
  | cons c cs ih =>
    simp only [List.foldl_cons, List.flatMap_cons, ih]
    by_cases h : c ∈ replace_chars
    · have hc : replace_chars.contains c = true := by simp [h]
      simp [h, hc, List.append_assoc]
    · have hc : replace_chars.contains c = false := by simp [h]
      simp [h, hc, List.append_assoc]

theorem backslash_not_reserved : replace_chars.contains '\\' = false := by
  decide

theorem escChar_spec (text : String) :
    (escapeSpec text).data = text.data.flatMap
      (fun ch => if replace_chars.contains ch then ['\\', ch] else [ch]) := rfl

theorem escape_eq_escapeSpec (text : String) :
    _escape_markdown_v2 text = escapeSpec text := by
  rw [_escape_markdown_v2, escapeSpec, escape_foldl_eq]
  rfl

theorem escFlat_ne_nil (c : Char) :
    (if replace_chars.contains c then ['\\', c] else [c]) ≠ [] := by
  split <;> simp

theorem strip_backslash_cons (l : List Char) :
    stripEscapeMarkers ('\\' ::
        l.flatMap (fun ch => if replace_chars.contains ch then ['\\', ch] else [ch]))
      = '\\' :: stripEscapeMarkers
          (l.flatMap (fun ch => if replace_chars.contains ch then ['\\', ch] else [ch])) := by
  cases l with
  | nil => rfl
  | cons d ds =>
    rw [List.flatMap_cons]
    by_cases hd : d ∈ replace_chars
    · have h1 : (if replace_chars.contains d then ['\\', d] else [d]) = ['\\', d] := by
        simp [hd]
      rw [h1, List.cons_append, List.cons_append, List.nil_append]
      show (if '\\' = '\\' && replace_chars.contains '\\' then _ else _) = _
      rw [if_neg (by decide)]
    · have h1 : (if replace_chars.contains d then ['\\', d] else [d]) = [d] := by
        simp [hd]
      rw [h1, List.singleton_append]
      show (if '\\' = '\\' && replace_chars.contains d then _ else _) = _
      rw [if_neg (by simp [hd])]

theorem strip_escFlat (l : List Char) :
    stripEscapeMarkers
        (l.flatMap (fun ch => if replace_chars.contains ch then ['\\', ch] else [ch]))
      = l := by
  induction l with
  | nil => rfl
  | cons c cs ih =>
    rw [List.flatMap_cons]
    by_cases hc : c ∈ replace_chars
    · have h1 : (if replace_chars.contains c then ['\\', c] else [c]) = ['\\', c] := by
        simp [hc]
      rw [h1, List.cons_append, List.cons_append, List.nil_append]
      show (if '\\' = '\\' && replace_chars.contains c then _ else _) = _
      rw [if_pos (by simp [hc]), ih]
    · have h1 : (if replace_chars.contains c then ['\\', c] else [c]) = [c] := by
        simp [hc]
      rw [h1, List.singleton_append]
      by_cases hbc : c = '\\'
      · subst hbc
        rw [strip_backslash_cons, ih]
      · cases hrest : cs.flatMap
            (fun ch => if replace_chars.contains ch then ['\\', ch] else [ch]) with
        | nil =>
          cases cs with
          | nil => rfl
          | cons c' cs' =>
            rw [List.flatMap_cons] at hrest
            exact absurd (List.append_eq_nil.mp hrest).1 (escFlat_ne_nil c')
        | cons x xs =>
          show (if c = '\\' && replace_chars.contains x then _ else _) = _
          rw [if_neg (by simp [hbc]), ← hrest, ih]

/-! ### Helper lemmas: whitespace stripping -/

theorem pyStrip_of_all_space {t : String} (h : t.data.all isPySpace = true) :
    pyStrip t = "" := by
  have h1 : t.data.dropWhile isPySpace = [] :=
    List.dropWhile_eq_nil_iff.mpr (by simpa [List.all_eq_true] using h)
  rw [pyStrip, h1]
  rfl

/-! ### Helper lemmas: soundness of the selector -/

theorem select_mem_qualifies {formats : List FormatEntry} {r : FormatDict}
    (h : select_best_direct_format formats = some r) :
    FormatEntry.dict r ∈ formats ∧ qualifies r = true := by
  rw [select_best_direct_format] at h
  cases hsort : sortDesc (candidates formats) with
  | nil => rw [hsort] at h; cases h
  | cons c t =>
    rw [hsort] at h
    obtain rfl := Option.some.inj h
    have hc : c ∈ candidates formats :=
      mem_sortDesc.mp (hsort ▸ List.mem_cons_self c t)
    obtain ⟨h1, h2, _⟩ := mem_candidates hc
    exact ⟨h1, h2⟩

theorem qualifies_url_ne {r : FormatDict} (h : qualifies r = true) :
    ¬(r.url.getD "" = "") := by
  rw [qualifies] at h
  simp only [Bool.and_eq_true] at h
  obtain ⟨⟨hu, _⟩, _⟩ := h
  cases hr : r.url with
  | none => rw [hr] at hu; cases hu
  | some s =>
    rw [hr] at hu
    simp only [truthyStr, Bool.not_eq_true', beq_eq_false_iff_ne, ne_eq] at hu
    simpa [hr] using hu

/-! ### Claim theorems -/

/-- C1: for every format list containing at least one dict entry with a
truthy `url` and a truthy `vcodec` other than `"none"`,
`select_best_direct_format` returns exactly the qualifying entry that
maximizes `(height, tbr, filesize)` lexicographically (missing or null
numeric fields counting as zero), ties going to the earliest qualifying
entry in input order: the result is `some b` where the qualifying
subsequence splits as `pre ++ b :: post`, every qualifying entry's key is
`≤` the key of `b`, and every qualifying entry before `b` has a strictly
smaller key. -/
theorem select_best_first_max (formats : List FormatEntry)
    (h : ∃ d, FormatEntry.dict d ∈ formats ∧ qualifies d = true) :
    ∃ b pre post,
      select_best_direct_format formats = some b ∧
      qualifying formats = pre ++ b :: post ∧
      (∀ d ∈ qualifying formats, lexLe (sortKey d) (sortKey b) = true) ∧
      ∀ d ∈ pre, lexLt (sortKey d) (sortKey b) = true := by
  obtain ⟨d0, hd0, hq0⟩ := h
  have hmem : (sortKey d0, d0) ∈ candidates formats := by
    rw [candidates_eq_map]
    exact List.mem_map.mpr ⟨d0, mem_qualifying hd0 hq0, rfl⟩
  have hne : candidates formats ≠ [] := by
    intro h0; rw [h0] at hmem; cases hmem
  cases hsort : sortDesc (candidates formats) with
  | nil => exact absurd hsort (sortDesc_ne_nil _ hne)
  | cons c t =>
    obtain ⟨hle, preC, postC, hdec, hlt⟩ := sortDesc_head hsort
    have hkey : ∀ p ∈ candidates formats, p.1 = sortKey p.2 :=
      fun p hp => (mem_candidates hp).2.2
    have hck : c.1 = sortKey c.2 := by
      refine hkey c ?_
      rw [hdec]
      exact List.mem_append_right _ (List.mem_cons_self _ _)
    refine ⟨c.2, preC.map (fun p => p.2), postC.map (fun p => p.2), ?_, ?_, ?_, ?_⟩
    · simp only [select_best_direct_format, hsort]
    · have hq : qualifying formats = (candidates formats).map (fun p => p.2) := by
        rw [candidates_eq_map, List.map_map]
        simp [Function.comp_def]
      rw [hq, hdec]
      simp
    · intro d hd
      have hdc : (sortKey d, d) ∈ candidates formats := by
        rw [candidates_eq_map]
        exact List.mem_map.mpr ⟨d, hd, rfl⟩
      have hb := hle _ hdc
      rw [hck] at hb
      exact hb
    · intro d hd
      obtain ⟨p, hp, rfl⟩ := List.mem_map.mp hd
      have hpc : p ∈ candidates formats := by
        rw [hdec]
        exact List.mem_append_left _ hp
      have hb := hlt p hp
      rw [hkey p hpc, hck] at hb
      exact hb

theorem select_best_first_max_witness :
    ∃ b pre post,
      select_best_direct_format
          [FormatEntry.malformed,
           FormatEntry.dict ⟨some "a", some "h264", some 720, some 500, none, none⟩,
           FormatEntry.dict ⟨some "b", some "h264", some 720, some 500, none, none⟩]
        = some b ∧
      qualifying
          [FormatEntry.malformed,
           FormatEntry.dict ⟨some "a", some "h264", some 720, some 500, none, none⟩,
           FormatEntry.dict ⟨some "b", some "h264", some 720, some 500, none, none⟩]
        = pre ++ b :: post ∧
      (∀ d ∈ qualifying
          [FormatEntry.malformed,
           FormatEntry.dict ⟨some "a", some "h264", some 720, some 500, none, none⟩,
           FormatEntry.dict ⟨some "b", some "h264", some 720, some 500, none, none⟩],
        lexLe (sortKey d) (sortKey b) = true) ∧
      ∀ d ∈ pre, lexLt (sortKey d) (sortKey b) = true :=
  select_best_first_max _
    ⟨⟨some "a", some "h264", some 720, some 500, none, none⟩, by decide⟩

/-- C7: for a format list in which every dict entry fails the qualification
test (no truthy `url`, or missing `vcodec`, or `vcodec = "none"`),
`select_best_direct_format` reports the explicit none-found result, and a
malformed non-dict entry is skipped without affecting the outcome. -/
theorem select_none_when_no_qualifier (formats : List FormatEntry) :
    ((∀ d : FormatDict, FormatEntry.dict d ∈ formats → qualifies d = false) →
        select_best_direct_format formats = none) ∧
    select_best_direct_format (FormatEntry.malformed :: formats) =
      select_best_direct_format formats := by
  constructor
  · intro h
    have hc : candidates formats = [] := by
      rw [candidates, List.filterMap_eq_nil_iff]
      intro f hf
      cases f with
      | malformed => rfl
      | dict d => simp [h d hf]
    simp only [select_best_direct_format, hc]
    rfl
  · rfl

theorem select_none_when_no_qualifier_witness :
    select_best_direct_format
        [FormatEntry.malformed,
         FormatEntry.dict ⟨some "u", some "none", some 1080, none, none, none⟩,
         FormatEntry.dict ⟨none, some "h264", some 720, none, none, none⟩,
         FormatEntry.dict ⟨some "", some "h264", none, none, none, none⟩] = none :=
  (select_none_when_no_qualifier _).1 (by
    intro d hd
    simp only [List.mem_cons, List.not_mem_nil, or_false] at hd
    rcases hd with hd | hd | hd | hd
    · exact FormatEntry.noConfusion hd
    · injection hd with h; subst h; decide
    · injection hd with h; subst h; decide
    · injection hd with h; subst h; decide)

/-- C6: escaping a title reproduces each reserved markup character preceded
by a single escape marker and leaves every other character unchanged
(`escapeSpec`), and stripping the escape markers from the escaped output
reconstructs the original title exactly. -/
theorem escape_markdown_correct_and_roundtrip (title : String) :
    _escape_markdown_v2 title = escapeSpec title ∧
    String.mk (stripEscapeMarkers (_escape_markdown_v2 title).data) = title := by
  refine ⟨escape_eq_escapeSpec title, ?_⟩
  rw [escape_eq_escapeSpec title]
  show String.mk (stripEscapeMarkers (title.data.flatMap
    (fun ch => if replace_chars.contains ch then ['\\', ch] else [ch]))) = title
  rw [strip_escFlat]

/-- C10: with an empty API key, both LuluStream clients fail immediately
with the not-configured error and issue no HTTP request at all (their
request logs are empty), whatever the network would have answered. -/
theorem clients_fail_fast_without_key (url file_code : String)
    (netU netI : HttpResp) :
    upload_url_to_lulustream url "" netU =
      ([], .error "LuluStream API key is not configured.") ∧
    get_file_info_from_lulustream file_code "" netI =
      ([], .error "LuluStream API key is not configured.") := by
  constructor <;> rfl

/-- C5: an unparsable body, or a body that parses to a falsy value (the
code's empty-body test), yields a 400 response without invoking the
orchestrator; a non-empty body that parses into an update yields a 200
response and invokes the orchestrator, whether or not orchestration
raises. -/
theorem webhook_entry_statuses (env : WebhookEnv) (req : ReqBody) :
    ((req = ReqBody.unparsable ∨ ∃ j, req = ReqBody.parsed j ∧ j.truthy = false) →
        (webhook_entry env req).1.1 = 400 ∧ (webhook_entry env req).2 = false) ∧
    ∀ (j : Json) (upd : Upd), req = ReqBody.parsed j → j.truthy = true →
      env.deJson j = .ok upd →
      (webhook_entry env req).1.1 = 200 ∧ (webhook_entry env req).2 = true := by
  constructor
  · rintro (rfl | ⟨j, rfl, hj⟩)
    · exact ⟨rfl, rfl⟩
    · simp [webhook_entry, hj]
  · rintro j upd rfl hj hok
    by_cases hp : env.processFails <;> simp [webhook_entry, hj, hok, hp]

theorem webhook_entry_statuses_witness :
    (webhook_entry ⟨fun _ => .ok ⟨none, none⟩, true⟩ ReqBody.unparsable).1.1 = 400 ∧
    (webhook_entry ⟨fun _ => .ok ⟨none, none⟩, true⟩
        (ReqBody.parsed (Json.num 1))).1.1 = 200 :=
  ⟨((webhook_entry_statuses ⟨fun _ => .ok ⟨none, none⟩, true⟩ ReqBody.unparsable).1
      (Or.inl rfl)).1,
   ((webhook_entry_statuses ⟨fun _ => .ok ⟨none, none⟩, true⟩
        (ReqBody.parsed (Json.num 1))).2 (Json.num 1) ⟨none, none⟩ rfl rfl rfl).1⟩

/-! ### Helper lemmas: reply-text discrimination -/

theorem noUrl_ne_metadata (e : String) :
    ¬("Selected format did not contain a direct URL."
        = "Metadata extraction failed: " ++ e) :=
  fun h => append_ne_of_head_ne "Metadata extraction failed: " e
    "Selected format did not contain a direct URL." 'M' 'S' rfl rfl
    (by decide) h.symm

theorem noUrl_ne_upload (e : String) :
    ¬("Selected format did not contain a direct URL."
        = "LuluStream upload failed: " ++ e) :=
  fun h => append_ne_of_head_ne "LuluStream upload failed: " e
    "Selected format did not contain a direct URL." 'L' 'S' rfl rfl
    (by decide) h.symm

theorem noUrl_ne_infofail (e : String) :
    ¬("Selected format did not contain a direct URL."
        = "Failed to retrieve file info from LuluStream: " ++ e) :=
  fun h => append_ne_of_head_ne "Failed to retrieve file info from LuluStream: " e
    "Selected format did not contain a direct URL." 'F' 'S' rfl rfl
    (by decide) h.symm

theorem noUrl_ne_photo (e : String) :
    ¬("Selected format did not contain a direct URL."
        = "Failed to send result photo: " ++ e) :=
  fun h => append_ne_of_head_ne "Failed to send result photo: " e
    "Selected format did not contain a direct URL." 'F' 'S' rfl rfl
    (by decide) h.symm

theorem containsSeq_of_isPrefixOf {pat l : List Char}
    (h : pat.isPrefixOf l = true) : containsSeq pat l = true := by
  cases l with
  | nil =>
    cases pat with
    | nil => rfl
    | cons p ps => exact Bool.noConfusion h
  | cons c rest => simp [containsSeq, h]

theorem mentionsUploadFailure_reply_failure (e : String) :
    mentionsUploadFailure (Event.reply ("LuluStream upload failed: " ++ e)) = true := by
  show containsSeq "LuluStream upload failed".data
      ("LuluStream upload failed: " ++ e).data = true
  rw [String.data_append]
  exact containsSeq_of_isPrefixOf (isPrefixOf_append_left _ _ _ (by decide))

theorem mentionsUploadFailure_processing :
    mentionsUploadFailure
      (Event.reply "Processing URL — extracting metadata (no download).") = false := by
  decide

theorem mentionsUploadFailure_extractCall :
    mentionsUploadFailure Event.extractCall = false := rfl

theorem mentionsUploadFailure_uploadCall :
    mentionsUploadFailure Event.uploadCall = false := rfl

/-- C3: a message whose sender identity differs from the configured
administrator identity, or arriving when no administrator identity is
configured, is dropped silently before any I/O: the handler produces no
reply and no external call. -/
theorem unauthorized_message_dropped (env : Env) (u : Upd)
    (h : env.ADMIN_USER_ID = none ∨ u.effectiveUser ≠ env.ADMIN_USER_ID) :
    _handle_admin_message env u = [] := by
  rcases u with ⟨m, user⟩
  cases m with
  | none => rfl
  | some msg =>
    rcases msg with ⟨mt⟩
    cases mt with
    | none => rfl
    | some rawText =>
      cases user with
      | none => cases hA : env.ADMIN_USER_ID <;> simp [_handle_admin_message, hA]
      | some s =>
        cases hA : env.ADMIN_USER_ID with
        | none => simp [_handle_admin_message, hA]
        | some a =>
          rcases h with h | h
          · rw [hA] at h; cases h
          · have hs : ¬s = a := by
              rw [hA] at h
              intro he
              exact h (by rw [he])
            simp [_handle_admin_message, hA, hs]

theorem unauthorized_message_dropped_witness :
    _handle_admin_message
      ⟨some 1, "k", fun _ => .error "", HttpResp.notJson, HttpResp.notJson, none⟩
      ⟨some ⟨some "https://example.com/video"⟩, some 2⟩ = [] :=
  unauthorized_message_dropped _ _ (Or.inr (by decide))

/-- C8: an authorized message whose text consists only of whitespace
produces exactly one usage-prompt reply and no external call, and the
handler then terminates. -/
theorem whitespace_message_usage_prompt (env : Env) (u : Upd) (a : Int) (t : String)
    (h1 : env.ADMIN_USER_ID = some a) (h2 : u.effectiveUser = some a)
    (h3 : u.message = some ⟨some t⟩) (h4 : t.data.all isPySpace = true) :
    _handle_admin_message env u =
      [Event.reply "Please send a valid video page URL or a direct video URL."] := by
  rcases u with ⟨m, user⟩
  obtain rfl : m = some ⟨some t⟩ := h3
  obtain rfl : user = some a := h2
  simp [_handle_admin_message, h1, pyStrip_of_all_space h4]

theorem whitespace_message_usage_prompt_witness :
    _handle_admin_message
      ⟨some 1, "k", fun _ => .error "", HttpResp.notJson, HttpResp.notJson, none⟩
      ⟨some ⟨some "  "⟩, some 1⟩ =
      [Event.reply "Please send a valid video page URL or a direct video URL."] :=
  whitespace_message_usage_prompt _ _ 1 "  " rfl rfl rfl (by decide)

/-- C9: whenever `select_best_direct_format` returns a format, that format
is a dict entry of the input list and passes the qualification test (truthy
`url`, truthy `vcodec` other than `"none"`); consequently the handler's
post-selection branch for a selected format without a direct URL is
unreachable — its reply never occurs in any trace. -/
theorem select_sound_and_no_url_reply_unreachable :
    (∀ (formats : List FormatEntry) (r : FormatDict),
        select_best_direct_format formats = some r →
        FormatEntry.dict r ∈ formats ∧ qualifies r = true) ∧
    ∀ (env : Env) (u : Upd),
      Event.reply "Selected format did not contain a direct URL." ∉
        _handle_admin_message env u := by
  refine ⟨fun _ _ h => select_mem_qualifies h, ?_⟩
  intro env u
  rcases u with ⟨m, user⟩
  cases m with
  | none => simp [_handle_admin_message]
  | some msg =>
    rcases msg with ⟨mt⟩
    cases mt with
    | none => simp [_handle_admin_message]
    | some rawText =>
      cases user with
      | none => cases hA : env.ADMIN_USER_ID <;> simp [_handle_admin_message, hA]
      | some s =>
        cases hA : env.ADMIN_USER_ID with
        | none => simp [_handle_admin_message, hA]
        | some a =>
          by_cases hsa : s = a
          case neg => simp [_handle_admin_message, hA, hsa]
          subst hsa
          by_cases hstrip : pyStrip rawText = ""
          · simp [_handle_admin_message, hA, hstrip]
          · cases hx : env.extract (pyStrip rawText) with
            | error e => simp [_handle_admin_message, hA, hstrip, hx, noUrl_ne_metadata]
            | ok info =>
              cases hsel : select_best_direct_format (info.formats.getD []) with
              | none => simp [_handle_admin_message, hA, hstrip, hx, hsel]
              | some best =>
                have hurl := qualifies_url_ne (select_mem_qualifies hsel).2
                cases hup : (upload_url_to_lulustream (best.url.getD "")
                    env.LULU_KEY env.uploadNet).2 with
                | error e =>
                  simp [_handle_admin_message, hA, hstrip, hx, hsel, hurl, hup,
                    noUrl_ne_upload]
                | ok fc =>
                  cases hinfo : (get_file_info_from_lulustream fc
                      env.LULU_KEY env.infoNet).2 with
                  | error e =>
                    simp [_handle_admin_message, hA, hstrip, hx, hsel, hurl, hup,
                      hinfo, noUrl_ne_infofail]
                  | ok fi =>
                    cases hsp : env.sendPhotoResult with
                    | none =>
                      simp [_handle_admin_message, hA, hstrip, hx, hsel, hurl, hup,
                        hinfo, hsp]
                    | some e =>
                      simp [_handle_admin_message, hA, hstrip, hx, hsel, hurl, hup,
                        hinfo, hsp, noUrl_ne_photo]

theorem select_sound_and_no_url_reply_unreachable_witness :
    (FormatEntry.dict ⟨some "u", some "h264", some 720, none, none, none⟩ ∈
        [FormatEntry.dict ⟨some "u", some "h264", some 720, none, none, none⟩] ∧
      qualifies ⟨some "u", some "h264", some 720, none, none, none⟩ = true) ∧
    Event.reply "Selected format did not contain a direct URL." ∉
      _handle_admin_message
        ⟨some 1, "k", fun _ => .error "", HttpResp.notJson, HttpResp.notJson, none⟩
        ⟨some ⟨some "x"⟩, some 1⟩ :=
  ⟨select_sound_and_no_url_reply_unreachable.1 _ _ rfl,
   select_sound_and_no_url_reply_unreachable.2 _ _⟩

/-- C4: in any run in which the upload client is invoked and its HTTP call
raises a transport error (with the API key configured), the trace contains
exactly one reply identifying the upload stage (counted by
`mentionsUploadFailure`), and the info-fetch client is never invoked. -/
theorem upload_transport_error_single_reply (env : Env) (u : Upd) (e : String)
    (hnet : env.uploadNet = HttpResp.transportError e)
    (hkey : ¬env.LULU_KEY = "")
    (hcall : Event.uploadCall ∈ _handle_admin_message env u) :
    (_handle_admin_message env u).countP mentionsUploadFailure = 1 ∧
      Event.infoCall ∉ _handle_admin_message env u := by
  rcases u with ⟨m, user⟩
  cases m with
  | none => simp [_handle_admin_message] at hcall
  | some msg =>
    rcases msg with ⟨mt⟩
    cases mt with
    | none => simp [_handle_admin_message] at hcall
    | some rawText =>
      cases user with
      | none =>
        cases hA : env.ADMIN_USER_ID <;> simp [_handle_admin_message, hA] at hcall
      | some s =>
        cases hA : env.ADMIN_USER_ID with
        | none => simp [_handle_admin_message, hA] at hcall
        | some a =>
          by_cases hsa : s = a
          case neg => simp [_handle_admin_message, hA, hsa] at hcall
          subst hsa
          by_cases hstrip : pyStrip rawText = ""
          · simp [_handle_admin_message, hA, hstrip] at hcall
          · cases hx : env.extract (pyStrip rawText) with
            | error e2 => simp [_handle_admin_message, hA, hstrip, hx] at hcall
            | ok info =>
              cases hsel : select_best_direct_format (info.formats.getD []) with
              | none => simp [_handle_admin_message, hA, hstrip, hx, hsel] at hcall
              | some best =>
                by_cases hurl : best.url.getD "" = ""
                · simp [_handle_admin_message, hA, hstrip, hx, hsel, hurl] at hcall
                · have hupErr : (upload_url_to_lulustream (best.url.getD "")
                      env.LULU_KEY env.uploadNet).2
                      = .error ("Failed to reach LuluStream upload endpoint: " ++ e) := by
                    simp [upload_url_to_lulustream, hkey, hnet]
                  constructor
                  · simp [_handle_admin_message, hA, hstrip, hx, hsel, hurl, hupErr,
                      List.countP_cons, mentionsUploadFailure_reply_failure,
                      mentionsUploadFailure_processing, mentionsUploadFailure_extractCall,
                      mentionsUploadFailure_uploadCall]
                  · simp [_handle_admin_message, hA, hstrip, hx, hsel, hurl, hupErr]

theorem upload_transport_error_single_reply_witness :
    (_handle_admin_message
        ⟨some 1, "k",
         fun _ => .ok ⟨some [FormatEntry.dict
           ⟨some "u", some "h264", some 720, none, none, none⟩]⟩,
         HttpResp.transportError "boom", HttpResp.notJson, none⟩
        ⟨some ⟨some "https://v"⟩, some 1⟩).countP mentionsUploadFailure = 1 ∧
      Event.infoCall ∉ _handle_admin_message
        ⟨some 1, "k",
         fun _ => .ok ⟨some [FormatEntry.dict
           ⟨some "u", some "h264", some 720, none, none, none⟩]⟩,
         HttpResp.transportError "boom", HttpResp.notJson, none⟩
        ⟨some ⟨some "https://v"⟩, some 1⟩ :=
  upload_transport_error_single_reply _ _ "boom" rfl (by decide) (by decide)

/-- C2 counterexample: a response whose three fields all appear, non-empty,
nested under `result` but under the alias spellings `title`, `thumbnail`
and `filecode` is rejected with the missing-required-fields error — the
nested fallback lookups use only the primary spellings `file_title`,
`player_img` and `file_code`, so alias names are not accepted under
`result`. -/
theorem info_client_nested_alias_rejected :
    (get_file_info_from_lulustream "abc" "k"
        (.json [("result", Json.obj
          [("title", Json.str "Demo Clip"),
           ("thumbnail", Json.str "https://img/demo.jpg"),
           ("filecode", Json.str "abc")])])).2
      = .error "LuluStream file/info response missing required fields." := rfl

/-- C2 (amended): with a configured key, the info client resolves each of
the three fields through an ordered candidate lookup — the alias spellings
`file_title|title`, `player_img|thumbnail`, `file_code|filecode` at top
level, then the primary spelling only (`file_title`, `player_img`,
`file_code`) nested under `result`; if any field resolves to a falsy value
the call fails with the missing-required-fields error, and otherwise it
returns the normalized triple. -/
theorem info_client_tolerant_lookup (fields : List (String × Json))
    (fc key : String) (hk : ¬key = "") :
    (get_file_info_from_lulustream fc key (.json fields)).2 =
      (if (fieldLookup fields ["file_title", "title"] "file_title").truthy &&
          (fieldLookup fields ["player_img", "thumbnail"] "player_img").truthy &&
          (fieldLookup fields ["file_code", "filecode"] "file_code").truthy then
        .ok ⟨pyStr (fieldLookup fields ["file_title", "title"] "file_title"),
             pyStr (fieldLookup fields ["player_img", "thumbnail"] "player_img"),
             pyStr (fieldLookup fields ["file_code", "filecode"] "file_code")⟩
      else .error "LuluStream file/info response missing required fields.") := by
  simp only [get_file_info_from_lulustream, if_neg hk]
  rfl

theorem info_client_tolerant_lookup_witness :
    (get_file_info_from_lulustream "abc" "k"
        (.json [("title", Json.str "Demo Clip"),
                ("thumbnail", Json.str "https://img/demo.jpg"),
                ("result", Json.obj [("file_code", Json.str "abc")])])).2
      = .ok ⟨"Demo Clip", "https://img/demo.jpg", "abc"⟩ := by
  rw [info_client_tolerant_lookup _ _ _ (by decide)]
  rfl
